import Mathlib

/-!
# fastglue-adapter: net/http handler → fastglue handler

A shallow embedding of `adapter.go` (package `fastglueadapter`) and the
properties of its request/response translation.

Conventions of the embedding:

* a Go `[]byte` is a `List Byte`; a Go `string` is a Lean `String` (text; the
  adapter only copies and compares strings, it never indexes into them);
* a Go `int` / `int64` is an `Int`: the adapter performs no arithmetic on
  integers, and `int64(len(body))` is exact because a slice length is a
  non-negative `int`;
* a Go `error` result is an `Option Error` (`none` is `nil`);
* a Go `map[string][]string` is an association list with pairwise distinct
  keys; ranging over the map is modelled by ranging over the list (Go leaves
  the order unspecified);
* pointer receivers become explicit state passing: a method returns its result
  together with the updated receiver.
-/

namespace FastglueAdapter

/-! ## Go values -/

/-- One byte of a Go byte slice. -/
abbrev Byte := UInt8

/-- Go error values met by the adapter: the sentinel `io.EOF`, and the error
reported by the request-target parser (carrying its message). -/
inductive Error where
  | EOF
  | parse (msg : String)
  deriving DecidableEq, Repr

/-- The text of a Go error, what `err.Error()` returns. -/
def Error.text : Error → String
  | .EOF => "EOF"
  | .parse msg => msg

/-- The fields of Go's `url.URL` (standard library type). -/
structure URL where
  Scheme : String := ""
  Opaque : String := ""
  Host : String := ""
  Path : String := ""
  RawPath : String := ""
  ForceQuery : Bool := false
  RawQuery : String := ""
  Fragment : String := ""
  deriving DecidableEq, Repr

/-! ## net/textproto and net/http headers (Go standard library) -/

/-- Go's `validHeaderFieldByte`: the bytes of an RFC 7230 token, that is the
ASCII letters, the digits and the characters in "!#$%&'*+-.^_|~" together with
the grave accent. -/
def validHeaderFieldByte (c : Char) : Bool :=
  let n := c.toNat
  decide (97 ≤ n ∧ n ≤ 122) || decide (65 ≤ n ∧ n ≤ 90) || decide (48 ≤ n ∧ n ≤ 57) ||
    [33, 35, 36, 37, 38, 39, 42, 43, 45, 46, 94, 95, 96, 124, 126].contains n

/-- The canonicalising loop of Go's `canonicalMIMEHeaderKey`: upper case for the
first letter and for a letter after a dash, lower case for every other letter.
`upper` says whether the next letter is to be upper case. -/
def canonicalMIMEHeaderKey : Bool → List Char → List Char
  | _, [] => []
  | upper, c :: cs =>
    let c1 :=
      if upper && decide (97 ≤ c.toNat ∧ c.toNat ≤ 122) then Char.ofNat (c.toNat - 32)
      else if !upper && decide (65 ≤ c.toNat ∧ c.toNat ≤ 90) then Char.ofNat (c.toNat + 32)
      else c
    c1 :: canonicalMIMEHeaderKey (c1 == '-') cs

/-- Go's `textproto.CanonicalMIMEHeaderKey`: a key holding a byte that is not
a valid header field byte is returned unchanged, any other key is
canonicalised ("accept-encoding" becomes "Accept-Encoding"). -/
def CanonicalMIMEHeaderKey (s : String) : String :=
  if s.data.all validHeaderFieldByte then String.mk (canonicalMIMEHeaderKey true s.data) else s

/-- Go's `http.Header`, a `map[string][]string`. -/
abbrev Header := List (String × List String)

/-- Map read `h[k]`. -/
def Header.lookup : Header → String → Option (List String)
  | [], _ => none
  | (k1, vv) :: rest, k => if k1 = k then some vv else Header.lookup rest k

/-- Map write `h[k] = vv`: the entry of an existing key is overwritten in place,
a new key gets a new entry. -/
def Header.store : Header → String → List String → Header
  | [], k, vv => [(k, vv)]
  | (k1, vv1) :: rest, k, vv =>
    if k1 = k then (k, vv) :: rest else (k1, vv1) :: Header.store rest k vv

/-- Map delete `delete(h, k)`. -/
def Header.delete : Header → String → Header
  | [], _ => []
  | (k1, vv1) :: rest, k => if k1 = k then rest else (k1, vv1) :: Header.delete rest k

/-- Go's `http.Header.Set`: `h[CanonicalMIMEHeaderKey(key)] = []string{value}`. -/
def Header.Set (h : Header) (key value : String) : Header :=
  Header.store h (CanonicalMIMEHeaderKey key) [value]

/-- Go's `http.Header.Add`: appends `value` to the values of the canonical key. -/
def Header.Add (h : Header) (key value : String) : Header :=
  let k := CanonicalMIMEHeaderKey key
  Header.store h k ((Header.lookup h k).getD [] ++ [value])

/-- Go's `http.Header.Get`: the first value of the canonical key, "" if none. -/
def Header.Get (h : Header) (key : String) : String :=
  match Header.lookup h (CanonicalMIMEHeaderKey key) with
  | some (v :: _) => v
  | _ => ""

/-- Go's `http.Header.Del`: removes the canonical key. -/
def Header.Del (h : Header) (key : String) : Header :=
  Header.delete h (CanonicalMIMEHeaderKey key)

/-! ## `netHTTPBody` (adapter.go, lines 99-115) -/

/-- The type `netHTTPBody`: the unread bytes of the buffered request body. -/
structure netHTTPBody where
  b : List Byte
  deriving DecidableEq, Repr

/-- The result of one `Read`: the destination buffer after the call, the
count `n` and the error. -/
structure ReadResult where
  p : List Byte
  n : Nat
  err : Option Error
  deriving DecidableEq, Repr

/-- The method `netHTTPBody.Read`. With no unread byte it returns `0, io.EOF`
and touches nothing; otherwise `copy(p, r.b)` moves `min(len(p), len(r.b))`
bytes to the front of `p` and `r.b` is advanced past them. -/
def netHTTPBody.Read (r : netHTTPBody) (p : List Byte) : ReadResult × netHTTPBody :=
  if r.b.length = 0 then
    ({ p := p, n := 0, err := some Error.EOF }, r)
  else
    let n := min p.length r.b.length
    ({ p := r.b.take n ++ p.drop n, n := n, err := none }, { b := r.b.drop n })

/-- The method `netHTTPBody.Close`: `r.b = r.b[:0]`, result `nil`. -/
def netHTTPBody.Close (r : netHTTPBody) : Option Error × netHTTPBody :=
  (none, { b := r.b.take 0 })

/-- The bytes a `Read` handed to its caller: the first `n` bytes of the
destination buffer. -/
def ReadResult.data (res : ReadResult) : List Byte := res.p.take res.n

/-- The state of the body reader before the `i`-th call (counted from 0) of a
sequence of `Read` calls whose `j`-th destination buffer is `bufs j`. -/
def readState (r : netHTTPBody) (bufs : Nat → List Byte) : Nat → netHTTPBody
  | 0 => r
  | i + 1 => ((readState r bufs i).Read (bufs i)).2

/-- The result of the `i`-th call of that sequence. -/
def readResult (r : netHTTPBody) (bufs : Nat → List Byte) (i : Nat) : ReadResult :=
  ((readState r bufs i).Read (bufs i)).1

/-! ## `netHTTPResponseWriter` (adapter.go, lines 117-144) -/

/-- The type `netHTTPResponseWriter`; its zero value is what `var w` declares.
`h = none` is the nil map. -/
structure netHTTPResponseWriter where
  statusCode : Int := 0
  h : Option Header := none
  body : List Byte := []

/-- The method `StatusCode`: `http.StatusOK` while the stored code is 0. -/
def netHTTPResponseWriter.StatusCode (w : netHTTPResponseWriter) : Int :=
  if w.statusCode = 0 then 200 else w.statusCode

/-- The method `Header`: the header map, created on first use. -/
def netHTTPResponseWriter.Header (w : netHTTPResponseWriter) : Header × netHTTPResponseWriter :=
  match w.h with
  | none => ([], { w with h := some [] })
  | some m => (m, w)

/-- The method `WriteHeader`. -/
def netHTTPResponseWriter.WriteHeader (w : netHTTPResponseWriter) (statusCode : Int) :
    netHTTPResponseWriter :=
  { w with statusCode := statusCode }

/-- The method `Write`: `w.body = append(w.body, p...)`, result `len(p), nil`. -/
def netHTTPResponseWriter.Write (w : netHTTPResponseWriter) (p : List Byte) :
    (Nat × Option Error) × netHTTPResponseWriter :=
  ((p.length, none), { w with body := w.body ++ p })

/-! ## The legacy handler -/

/-- The fields of `http.Request` the adapter fills in. `ctx` holds the values
`r.Context().Value` can see once `WithContext` has attached the inbound
transaction. -/
structure HttpRequest where
  Method : String := ""
  Proto : String := ""
  ProtoMajor : Int := 0
  ProtoMinor : Int := 0
  RequestURI : String := ""
  ContentLength : Int := 0
  Host : String := ""
  RemoteAddr : String := ""
  TransferEncoding : List String := []
  Header : Header := []
  Body : netHTTPBody := { b := [] }
  URL : Option URL := none
  ctx : List (String × String) := []

/-- One call a handler makes on the `http.ResponseWriter` it is given. The
writer is an unexported type behind the interface, so these three methods are
all a handler can reach; `Header mutate` is a call of `Header()` followed by
the changes `mutate` the handler makes to the returned map (`Set`, `Add`,
`Del`, direct assignment, or none). -/
inductive RWCall where
  | Header (mutate : FastglueAdapter.Header → FastglueAdapter.Header)
  | WriteHeader (statusCode : Int)
  | Write (p : List Byte)

/-- A legacy handler (`http.Handler`), seen from the adapter: given the
request, the calls it makes on the response writer, in order, before it
returns. -/
abbrev Handler := HttpRequest → List RWCall

/-- The effect of one handler call on the response writer. -/
def netHTTPResponseWriter.call (w : netHTTPResponseWriter) : RWCall → netHTTPResponseWriter
  | .Header mutate => let (m, w1) := w.Header; { w1 with h := some (mutate m) }
  | .WriteHeader statusCode => w.WriteHeader statusCode
  | .Write p => (w.Write p).2

/-- The effect of a sequence of handler calls on the response writer. -/
def netHTTPResponseWriter.calls (w : netHTTPResponseWriter) (cs : List RWCall) :
    netHTTPResponseWriter :=
  cs.foldl netHTTPResponseWriter.call w

/-- The call `h.ServeHTTP(&w, r)`. -/
def ServeHTTP (h : Handler) (w : netHTTPResponseWriter) (r : HttpRequest) :
    netHTTPResponseWriter :=
  w.calls (h r)

/-! ## The inbound transaction (fasthttp / fastglue, external) -/

/-- The outbound half of the inbound transaction (`fasthttp.Response`):
status, header pairs, body. -/
structure Response where
  statusCode : Int := 0
  header : List (String × String) := []
  body : List Byte := []
  deriving DecidableEq, Repr

/-- One diagnostic line given to `Logger().Printf`: format and arguments. -/
structure LogLine where
  format : String
  args : List String
  deriving DecidableEq, Repr

/-- The inbound transaction (`fastglue.Request` with its `RequestCtx`), reduced
to what the adapter reads and writes. `header` is the sequence of pairs
`Request.Header.VisitAll` yields, in visit order; `remoteAddr` is
`RemoteAddr().String()`; `protocol` is the version the client spoke, which the
adapter never reads. -/
structure RequestCtx where
  method : String := ""
  requestURI : String := ""
  protocol : String := "HTTP/1.1"
  host : String := ""
  remoteAddr : String := ""
  postBody : List Byte := []
  header : List (String × String) := []
  userValues : List (String × String) := []
  Response : Response := {}
  logger : List LogLine := []
  deriving DecidableEq, Repr

/-- Modelled from the spec: `RequestCtx.SetStatusCode` of fasthttp (an external
library, not under src/), the "set response status" capability. -/
def RequestCtx.SetStatusCode (ctx : RequestCtx) (statusCode : Int) : RequestCtx :=
  { ctx with Response := { ctx.Response with statusCode := statusCode } }

/-- Replace-by-name on a list of header pairs: the first pair named `k` gets
the value `v`; when there is none a new pair is appended. -/
def setArg : List (String × String) → String → String → List (String × String)
  | [], k, v => [(k, v)]
  | (k1, v1) :: rest, k, v => if k1 = k then (k, v) :: rest else (k1, v1) :: setArg rest k v

/-- Modelled from the spec: `Response.Header.Set` of fasthttp (an external
library, not under src/), the "set response headers" capability with
fasthttp's Set semantics, replace by name. -/
def RequestCtx.ResponseHeaderSet (ctx : RequestCtx) (k v : String) : RequestCtx :=
  { ctx with Response := { ctx.Response with header := setArg ctx.Response.header k v } }

/-- Modelled from the spec: `RequestCtx.Write` of fasthttp (an external
library, not under src/), the "write response body bytes" capability: the
bytes are appended to the response body, the result is `len(p), nil`. -/
def RequestCtx.Write (ctx : RequestCtx) (p : List Byte) : (Nat × Option Error) × RequestCtx :=
  ((p.length, none), { ctx with Response := { ctx.Response with body := ctx.Response.body ++ p } })

/-- Modelled from the spec: `RequestCtx.Error` of fasthttp (an external
library, not under src/), the fallback "write fixed status + fixed plain-text
body" capability: the response is reset, then given the status, a plain-text
content type and the message as its body. -/
def RequestCtx.Error (ctx : RequestCtx) (msg : String) (statusCode : Int) : RequestCtx :=
  { ctx with Response :=
      { statusCode := statusCode
        header := [("Content-Type", "text/plain; charset=utf-8")]
        body := msg.toUTF8.data.toList } }

/-- Modelled from the spec: `Logger().Printf` of fasthttp (an external
library, not under src/), the diagnostic logging sink. -/
def RequestCtx.Printf (ctx : RequestCtx) (format : String) (args : List String) : RequestCtx :=
  { ctx with logger := ctx.logger ++ [{ format := format, args := args }] }

/-! ## `NewFastGlueHandler` (adapter.go, lines 49-97) -/

/-- The body of the closure given to `VisitAll` (lines 64-73), as a step on the
pair of `hdr` and `r.TransferEncoding`. -/
def visitHeader (acc : Header × List String) (kv : String × String) : Header × List String :=
  let sk := kv.1
  let sv := kv.2
  if sk = "Transfer-Encoding" then (acc.1, acc.2 ++ [sv])
  else (Header.Set acc.1 sk sv, acc.2)

/-- The walk `Request.Header.VisitAll` over the inbound headers, from an empty
`hdr` and an empty `r.TransferEncoding`. -/
def visitAll (hs : List (String × String)) : Header × List String :=
  hs.foldl visitHeader ([], [])

/-- Lines 51-75: the request `r` as it stands when the request-target is about
to be parsed. -/
def buildRequest (req : RequestCtx) : HttpRequest :=
  let body := req.postBody
  let visited := visitAll req.header
  { Method := req.method
    Proto := "HTTP/1.1"
    ProtoMajor := 1
    ProtoMinor := 1
    RequestURI := req.requestURI
    ContentLength := Int.ofNat body.length
    Host := req.host
    RemoteAddr := req.remoteAddr
    TransferEncoding := visited.2
    Header := visited.1
    Body := { b := body } }

/-- The method `WithContext` of `http.Request`, applied to the inbound
transaction: its user values become the values of the request's context. -/
def HttpRequest.WithContext (r : HttpRequest) (req : RequestCtx) : HttpRequest :=
  { r with ctx := req.userValues }

/-- Lines 88-92: every value of every captured header is set on the outbound
headers, name by name in the order of the range. -/
def replayHeaders (ctx : RequestCtx) (h : Header) : RequestCtx :=
  h.foldl (fun c kvv => kvv.2.foldl (fun c1 v => c1.ResponseHeaderSet kvv.1 v) c) ctx

/-- What one call of the returned handler leaves behind: the inbound
transaction after the call, the returned error, and the requests with which
the legacy handler was invoked, in order. -/
structure Outcome where
  ctx : RequestCtx
  err : Option Error
  served : List HttpRequest

/-- The function `NewFastGlueHandler`: the handler it returns, applied to the
inbound transaction `req`. `ParseRequestURI` is Go's `url.ParseRequestURI`
(standard library), taken as a parameter. -/
def NewFastGlueHandler (ParseRequestURI : String → Except Error URL) (h : Handler)
    (req : RequestCtx) : Outcome :=
  let r := buildRequest req
  match ParseRequestURI r.RequestURI with
  | .error err =>
    let ctx := req.Printf "cannot parse requestURI %q: %s" [r.RequestURI, err.text]
    let ctx := ctx.Error "Internal Server Error" 500
    { ctx := ctx, err := some err, served := [] }
  | .ok rURL =>
    let r := { r with URL := some rURL }
    let w : netHTTPResponseWriter := {}
    let arg := r.WithContext req
    let w := ServeHTTP h w arg
    let ctx := req.SetStatusCode w.StatusCode
    let (m, w) := w.Header
    let ctx := replayHeaders ctx m
    let (res, ctx) := ctx.Write w.body
    { ctx := ctx, err := res.2, served := [arg] }

/-- The function `NewFastGlueHandlerFunc`: the same adapter for a handler
function. -/
def NewFastGlueHandlerFunc (ParseRequestURI : String → Except Error URL) (h : Handler)
    (req : RequestCtx) : Outcome :=
  NewFastGlueHandler ParseRequestURI h req

/-- The request handed to the legacy handler when the request-target parses to
`rURL` (lines 82 and 85). -/
def servedRequest (req : RequestCtx) (rURL : URL) : HttpRequest :=
  ({ buildRequest req with URL := some rURL }).WithContext req

/-! ## A request-target parser for closed examples -/

/-- Go's `stringContainsCTLByte`: some character is below 0x20 or is 0x7f. -/
def stringContainsCTLByte (s : String) : Bool :=
  s.data.any (fun c => decide (c.toNat < 32) || decide (c.toNat = 127))

/-- The characters a request path may hold as they are: Go's path escaping
leaves them alone and none of them starts a query or an escape. They are the
ASCII letters, the digits and the characters of "-_.~$&+,/:;=@". -/
def plainPathChar (c : Char) : Bool :=
  let n := c.toNat
  decide (97 ≤ n ∧ n ≤ 122) || decide (65 ≤ n ∧ n ≤ 90) || decide (48 ≤ n ∧ n ≤ 57) ||
    [45, 95, 46, 126, 36, 38, 43, 44, 47, 58, 59, 61, 64].contains n

/-- Modelled from the spec: the parser of "absolute-path request URIs" (Go's
`url.ParseRequestURI`, standard library, not under src/), on the targets the
closed examples below use. A target with a raw control character is rejected,
so is the empty target; a target that starts with a slash and is made of plain
path characters parses to a URL with that path and nothing else. Any other
target (a scheme, a query, an escape) lies outside this model, which answers
with an error for it; no example uses one, and every general theorem below
takes the parser as a parameter instead. -/
def parseRequestURI (rawURL : String) : Except Error URL :=
  if stringContainsCTLByte rawURL then
    .error (.parse "net/url: invalid control character in URL")
  else if rawURL = "" then
    .error (.parse "empty url")
  else if rawURL.data.head? = some '/' ∧ rawURL.data.all plainPathChar then
    .ok { Path := rawURL }
  else
    .error (.parse "invalid URI for request")

/-! ## Reading a handler's calls -/

/-- Whether a call is a body `Write`. -/
def RWCall.isWrite : RWCall → Bool
  | .Write _ => true
  | _ => false

/-- The status codes of the `WriteHeader` calls of a call sequence, in call
order. -/
def writeHeaderCodes : List RWCall → List Int
  | [] => []
  | .WriteHeader c :: cs => c :: writeHeaderCodes cs
  | _ :: cs => writeHeaderCodes cs

/-- The status code of the last `WriteHeader` call of a call sequence, if it
has one. -/
def lastWriteHeader (cs : List RWCall) : Option Int := (writeHeaderCodes cs).getLast?

/-- The calls made before the first body `Write`. -/
def beforeFirstWrite (cs : List RWCall) : List RWCall := cs.takeWhile (fun c => !c.isWrite)

/-- The byte slices given to `Write` by a call sequence, concatenated in call
order. -/
def writtenBytes : List RWCall → List Byte
  | [] => []
  | .Write p :: cs => p ++ writtenBytes cs
  | _ :: cs => writtenBytes cs

/-- The specification's reading of "a header named Transfer-Encoding": the name
matches "transfer-encoding" when letter case is ignored. -/
def specNamesTransferEncoding (name : String) : Bool :=
  name.data.map Char.toLower = "transfer-encoding".data

/-! ## Concrete transactions and handlers -/

/-- An inbound transaction: `GET /` with body "hello" and a header `X-A: 1`,
on a fresh response. -/
def getRoot : RequestCtx :=
  { method := "GET"
    requestURI := "/"
    host := "foobar.com"
    remoteAddr := "172.217.167.174:80"
    postBody := [104, 101, 108, 108, 111]
    header := [("X-A", "1")] }

/-- A handler that gives the header `X-Multi` the two values "a" and "b" with
`w.Header().Add` and writes nothing else. -/
def addsTwoValues : Handler :=
  fun _ => [.Header (fun m => Header.Add (Header.Add m "X-Multi" "a") "X-Multi" "b")]

/-- A handler that sets status 201, writes "ok" in two pieces with a header
access in between. -/
def writesOk : Handler :=
  fun _ => [.WriteHeader 201, .Write [111], .Header (fun m => Header.Set m "X-B" "2"),
    .Write [107]]

/-- The same transaction with a request-target that holds a raw tab. -/
def tabTarget : RequestCtx := { getRoot with requestURI := "/a\tb" }

/-- A transaction whose header name is Transfer-Encoding in lower case. -/
def lowerCaseTransferEncoding : RequestCtx :=
  { getRoot with header := [("transfer-encoding", "chunked")] }

/-- A transaction that carries the header `X-A` twice. -/
def repeatedHeader : RequestCtx :=
  { getRoot with header := [("X-A", "1"), ("X-A", "2")] }

/-- A transaction with a Transfer-Encoding header between two ordinary ones. -/
def mixedHeaders : RequestCtx :=
  { getRoot with header := [("Foo-Bar", "baz"), ("Transfer-Encoding", "encoding"), ("Abc", "defg")] }

/-- A handler that calls `WriteHeader(0)` and nothing else. -/
def writesHeaderZero : Handler := fun _ => [.WriteHeader 0]

/-- A call sequence with a `WriteHeader` on either side of a body `Write`. -/
def headerAfterWrite : List RWCall := [.WriteHeader 201, .Write [111, 107], .WriteHeader 500]

/-- A body of three bytes. -/
def threeBytes : List Byte := [104, 105, 33]

/-- Destination buffers of two bytes each. -/
def twoByteBuffers : Nat → List Byte := fun _ => [0, 0]

/-! ## The body reader -/

theorem read_nil (p : List Byte) :
    netHTTPBody.Read { b := [] } p = ({ p := p, n := 0, err := some Error.EOF }, { b := [] }) := by
  simp [netHTTPBody.Read]

theorem read_cons (x : Byte) (xs p : List Byte) :
    netHTTPBody.Read { b := x :: xs } p =
      ({ p := (x :: xs).take (min p.length (xs.length + 1)) ++
              p.drop (min p.length (xs.length + 1)),
         n := min p.length (xs.length + 1), err := none },
       { b := (x :: xs).drop (min p.length (xs.length + 1)) }) := by
  simp [netHTTPBody.Read]

theorem readState_nil (bufs : Nat → List Byte) (i : Nat) :
    readState { b := [] } bufs i = { b := [] } := by
  induction i with
  | zero => rfl
  | succ i ih => simp [readState, ih, read_nil]

theorem readState_succ (r : netHTTPBody) (bufs : Nat → List Byte) (i : Nat) :
    readState r bufs (i + 1) = readState (r.Read (bufs 0)).2 (fun j => bufs (j + 1)) i := by
  induction i with
  | zero => rfl
  | succ i ih =>
    show ((readState r bufs (i + 1)).Read (bufs (i + 1))).2 = _
    rw [ih]
    rfl

theorem readResult_succ (r : netHTTPBody) (bufs : Nat → List Byte) (i : Nat) :
    readResult r bufs (i + 1) = readResult (r.Read (bufs 0)).2 (fun j => bufs (j + 1)) i := by
  unfold readResult
  rw [readState_succ]

/-- The whole statement of reading to exhaustion, for a body of length at most
`n`. -/
theorem read_exhausts_aux (n : Nat) : ∀ (b : List Byte) (bufs : Nat → List Byte),
    b.length ≤ n → (∀ i, 0 < (bufs i).length) →
    ∃ N, N ≤ b.length ∧
      (∀ i, i < N → (readResult { b := b } bufs i).err = none) ∧
      ((List.range N).map (fun i => (readResult { b := b } bufs i).data)).flatten = b ∧
      (∀ i, N ≤ i → (readResult { b := b } bufs i).n = 0 ∧
        (readResult { b := b } bufs i).data = [] ∧
        (readResult { b := b } bufs i).err = some Error.EOF) := by
  induction n with
  | zero =>
    intro b bufs hb _
    have hnil : b = [] := List.length_eq_zero.mp (Nat.le_zero.mp hb)
    subst hnil
    refine ⟨0, Nat.le_refl _, ?_, by simp, ?_⟩
    · intro i hi
      omega
    · intro i _
      simp [readResult, readState_nil, read_nil, ReadResult.data]
  | succ n ih =>
    intro b bufs hb hbufs
    cases b with
    | nil =>
      refine ⟨0, Nat.le_refl _, ?_, by simp, ?_⟩
      · intro i hi
        omega
      · intro i _
        simp [readResult, readState_nil, read_nil, ReadResult.data]
    | cons x xs =>
      have hp : 0 < (bufs 0).length := hbufs 0
      have hk : 0 < min (bufs 0).length (xs.length + 1) := by
        simp only [lt_min_iff]
        omega
      have hlen : ((x :: xs).drop (min (bufs 0).length (xs.length + 1))).length ≤ n := by
        simp only [List.length_drop, List.length_cons] at hb ⊢
        omega
      obtain ⟨N, hN, herr, hcat, heof⟩ :=
        ih ((x :: xs).drop (min (bufs 0).length (xs.length + 1))) (fun j => bufs (j + 1)) hlen
          (fun i => hbufs (i + 1))
      have hfirst : (readResult { b := x :: xs } bufs 0).data =
          (x :: xs).take (min (bufs 0).length (xs.length + 1)) := by
        simp only [readResult, readState, read_cons, ReadResult.data]
        rw [List.take_append_of_le_length (by simp)]
        rw [List.take_take]
        simp
      have hrest : ∀ i, readResult { b := x :: xs } bufs (i + 1) =
          readResult { b := (x :: xs).drop (min (bufs 0).length (xs.length + 1)) }
            (fun j => bufs (j + 1)) i := by
        intro i
        rw [readResult_succ, read_cons]
      refine ⟨N + 1, ?_, ?_, ?_, ?_⟩
      · simp only [List.length_drop, List.length_cons] at hN ⊢
        omega
      · intro i hi
        cases i with
        | zero => simp [readResult, readState, read_cons]
        | succ i =>
          rw [hrest]
          exact herr i (by omega)
      · rw [List.range_succ_eq_map, List.map_cons, List.flatten_cons, List.map_map, hfirst]
        have hfun : ((fun i => (readResult { b := x :: xs } bufs i).data) ∘ Nat.succ) =
            fun i => (readResult { b := (x :: xs).drop (min (bufs 0).length (xs.length + 1)) }
              (fun j => bufs (j + 1)) i).data := by
          funext i
          show (readResult { b := x :: xs } bufs (i + 1)).data = _
          rw [hrest]
        rw [hfun, hcat]
        exact List.take_append_drop _ _
      · intro i hi
        cases i with
        | zero => omega
        | succ i =>
          rw [hrest]
          exact heof i (by omega)

/-! ## The response writer -/

theorem calls_nil (w : netHTTPResponseWriter) : w.calls [] = w := rfl

theorem calls_cons (w : netHTTPResponseWriter) (c : RWCall) (cs : List RWCall) :
    w.calls (c :: cs) = (w.call c).calls cs := rfl

theorem Header_body (w : netHTTPResponseWriter) : w.Header.2.body = w.body := by
  unfold netHTTPResponseWriter.Header
  cases w.h <;> rfl

theorem Header_statusCode (w : netHTTPResponseWriter) :
    w.Header.2.statusCode = w.statusCode := by
  unfold netHTTPResponseWriter.Header
  cases w.h <;> rfl

theorem calls_body (cs : List RWCall) : ∀ w : netHTTPResponseWriter,
    (w.calls cs).body = w.body ++ writtenBytes cs := by
  induction cs with
  | nil => intro w; simp [calls_nil, writtenBytes]
  | cons c cs ih =>
    intro w
    rw [calls_cons, ih]
    cases c with
    | Header mutate =>
      simp [netHTTPResponseWriter.call, writtenBytes, Header_body]
    | WriteHeader statusCode =>
      simp [netHTTPResponseWriter.call, netHTTPResponseWriter.WriteHeader, writtenBytes]
    | Write p =>
      simp [netHTTPResponseWriter.call, netHTTPResponseWriter.Write, writtenBytes]

theorem calls_statusCode (cs : List RWCall) : ∀ w : netHTTPResponseWriter,
    (w.calls cs).statusCode = (lastWriteHeader cs).getD w.statusCode := by
  induction cs with
  | nil => intro w; simp [calls_nil, lastWriteHeader, writeHeaderCodes]
  | cons c cs ih =>
    intro w
    rw [calls_cons, ih]
    cases c with
    | Header mutate =>
      simp [netHTTPResponseWriter.call, lastWriteHeader, writeHeaderCodes, Header_statusCode]
    | WriteHeader statusCode =>
      simp only [netHTTPResponseWriter.call, netHTTPResponseWriter.WriteHeader, lastWriteHeader,
        writeHeaderCodes]
      cases hcs : writeHeaderCodes cs with
      | nil => simp
      | cons d ds =>
        rw [List.getLast?_cons_cons, List.getLast?_eq_getLast (d :: ds) (by simp)]
        rfl
    | Write p =>
      simp [netHTTPResponseWriter.call, netHTTPResponseWriter.Write, lastWriteHeader,
        writeHeaderCodes]

/-! ## Replaying the capture -/

theorem ResponseHeaderSet_body (ctx : RequestCtx) (k v : String) :
    (ctx.ResponseHeaderSet k v).Response.body = ctx.Response.body := rfl

theorem ResponseHeaderSet_statusCode (ctx : RequestCtx) (k v : String) :
    (ctx.ResponseHeaderSet k v).Response.statusCode = ctx.Response.statusCode := rfl

theorem replayValues_keeps (k : String) (vv : List String) : ∀ ctx : RequestCtx,
    (vv.foldl (fun c1 v => c1.ResponseHeaderSet k v) ctx).Response.body = ctx.Response.body ∧
    (vv.foldl (fun c1 v => c1.ResponseHeaderSet k v) ctx).Response.statusCode =
      ctx.Response.statusCode := by
  induction vv with
  | nil => intro ctx; exact ⟨rfl, rfl⟩
  | cons v vv ih =>
    intro ctx
    rw [List.foldl_cons]
    exact ih (ctx.ResponseHeaderSet k v)

theorem replayHeaders_keeps (m : Header) : ∀ ctx : RequestCtx,
    (replayHeaders ctx m).Response.body = ctx.Response.body ∧
    (replayHeaders ctx m).Response.statusCode = ctx.Response.statusCode := by
  induction m with
  | nil => intro ctx; exact ⟨rfl, rfl⟩
  | cons kvv m ih =>
    intro ctx
    unfold replayHeaders at ih ⊢
    rw [List.foldl_cons]
    have h1 := ih (kvv.2.foldl (fun c1 v => c1.ResponseHeaderSet kvv.1 v) ctx)
    have h2 := replayValues_keeps kvv.1 kvv.2 ctx
    exact ⟨h1.1.trans h2.1, h1.2.trans h2.2⟩

/-! ## The two paths of the returned handler -/

theorem NewFastGlueHandler_error (ParseRequestURI : String → Except Error URL) (h : Handler)
    (req : RequestCtx) (err : Error) (hparse : ParseRequestURI req.requestURI = .error err) :
    NewFastGlueHandler ParseRequestURI h req =
      { ctx := (req.Printf "cannot parse requestURI %q: %s" [req.requestURI, err.text]).Error
          "Internal Server Error" 500
        err := some err
        served := [] } := by
  have huri : (buildRequest req).RequestURI = req.requestURI := rfl
  unfold NewFastGlueHandler
  simp only [huri, hparse]

theorem NewFastGlueHandler_ok (ParseRequestURI : String → Except Error URL) (h : Handler)
    (req : RequestCtx) (u : URL) (hparse : ParseRequestURI req.requestURI = .ok u) :
    NewFastGlueHandler ParseRequestURI h req =
      { ctx := ((replayHeaders
            (req.SetStatusCode (ServeHTTP h {} (servedRequest req u)).StatusCode)
            (ServeHTTP h {} (servedRequest req u)).Header.1).Write
              (ServeHTTP h {} (servedRequest req u)).Header.2.body).2
        err := none
        served := [servedRequest req u] } := by
  have huri : (buildRequest req).RequestURI = req.requestURI := rfl
  unfold NewFastGlueHandler
  simp only [huri, hparse]
  rfl

/-! ## The inbound headers -/

theorem lookup_store (h : Header) (k k1 : String) (vv : List String) :
    Header.lookup (Header.store h k vv) k1 = if k = k1 then some vv else Header.lookup h k1 := by
  induction h with
  | nil => simp [Header.store, Header.lookup]
  | cons e rest ih =>
    obtain ⟨k0, vv0⟩ := e
    by_cases h0 : k0 = k
    · subst h0
      by_cases h1 : k0 = k1 <;> simp [Header.store, Header.lookup, h1]
    · by_cases h1 : k0 = k1
      · subst h1
        have hne : ¬ k = k0 := fun hk => h0 hk.symm
        simp [Header.store, Header.lookup, h0, hne]
      · simp [Header.store, Header.lookup, h0, h1, ih]

theorem visitHeader_transferEncoding (acc : Header × List String) (v : String) :
    visitHeader acc ("Transfer-Encoding", v) = (acc.1, acc.2 ++ [v]) := by
  simp [visitHeader]

theorem visitHeader_other (acc : Header × List String) (k v : String)
    (hk : k ≠ "Transfer-Encoding") :
    visitHeader acc (k, v) = (Header.Set acc.1 k v, acc.2) := by
  simp [visitHeader, hk]

theorem visit_transferEncoding (hs : List (String × String)) : ∀ acc : Header × List String,
    (hs.foldl visitHeader acc).2 =
      acc.2 ++ (hs.filter (fun kv => decide (kv.1 = "Transfer-Encoding"))).map (fun kv => kv.2) := by
  induction hs with
  | nil => intro acc; simp
  | cons kv hs ih =>
    intro acc
    obtain ⟨k, v⟩ := kv
    rw [List.foldl_cons, ih]
    by_cases hk : k = "Transfer-Encoding"
    · subst hk
      simp [visitHeader_transferEncoding]
    · simp [visitHeader_other acc k v hk, hk]

theorem visit_lookup_keep (K : String) (hs : List (String × String)) :
    ∀ acc : Header × List String,
    (∀ kv ∈ hs, kv.1 ≠ "Transfer-Encoding" → CanonicalMIMEHeaderKey kv.1 ≠ K) →
    Header.lookup (hs.foldl visitHeader acc).1 K = Header.lookup acc.1 K := by
  induction hs with
  | nil => intro acc _; rfl
  | cons kv hs ih =>
    intro acc hall
    obtain ⟨k, v⟩ := kv
    rw [List.foldl_cons, ih _ (fun kv hkv => hall kv (List.mem_cons_of_mem _ hkv))]
    by_cases hk : k = "Transfer-Encoding"
    · subst hk
      rw [visitHeader_transferEncoding]
    · have hne : CanonicalMIMEHeaderKey k ≠ K := hall (k, v) (List.mem_cons_self _ _) hk
      rw [visitHeader_other acc k v hk]
      simp [Header.Set, lookup_store, hne]

theorem visit_lookup_present (K : String) (hs : List (String × String)) :
    ∀ acc : Header × List String,
    (Header.lookup (hs.foldl visitHeader acc).1 K ≠ none ↔
      (Header.lookup acc.1 K ≠ none ∨
        ∃ kv ∈ hs, kv.1 ≠ "Transfer-Encoding" ∧ CanonicalMIMEHeaderKey kv.1 = K)) := by
  induction hs with
  | nil => intro acc; simp
  | cons kv hs ih =>
    intro acc
    obtain ⟨k, v⟩ := kv
    rw [List.foldl_cons, ih]
    by_cases hk : k = "Transfer-Encoding"
    · subst hk
      rw [visitHeader_transferEncoding]
      simp
    · rw [visitHeader_other acc k v hk]
      by_cases hc : CanonicalMIMEHeaderKey k = K
      · simp [Header.Set, lookup_store, hc, hk]
      · simp [Header.Set, lookup_store, hc, hk]

theorem outcome_statusCode (ParseRequestURI : String → Except Error URL) (h : Handler)
    (req : RequestCtx) (u : URL) (hparse : ParseRequestURI req.requestURI = .ok u) :
    (NewFastGlueHandler ParseRequestURI h req).ctx.Response.statusCode =
      (({} : netHTTPResponseWriter).calls (h (servedRequest req u))).StatusCode := by
  rw [NewFastGlueHandler_ok ParseRequestURI h req u hparse]
  show (replayHeaders _ _).Response.statusCode = _
  rw [(replayHeaders_keeps _ _).2]
  rfl

theorem outcome_body (ParseRequestURI : String → Except Error URL) (h : Handler)
    (req : RequestCtx) (u : URL) (hparse : ParseRequestURI req.requestURI = .ok u) :
    (NewFastGlueHandler ParseRequestURI h req).ctx.Response.body =
      req.Response.body ++ writtenBytes (h (servedRequest req u)) := by
  rw [NewFastGlueHandler_ok ParseRequestURI h req u hparse]
  show (replayHeaders _ _).Response.body ++ _ = _
  rw [(replayHeaders_keeps _ _).1, Header_body]
  show req.Response.body ++ (({} : netHTTPResponseWriter).calls _).body = _
  rw [calls_body]
  rfl

theorem StatusCode_calls (cs : List RWCall) :
    (({} : netHTTPResponseWriter).calls cs).StatusCode =
      match lastWriteHeader cs with
      | none => 200
      | some c => if c = 0 then 200 else c := by
  unfold netHTTPResponseWriter.StatusCode
  rw [calls_statusCode]
  cases lastWriteHeader cs with
  | none => rfl
  | some c => rfl

/-! ## The claims -/

/-- C1 (the code departs from it): the handler `addsTwoValues` leaves the two
values "a" and "b" under `X-Multi` in the captured header map, and after the
replay the outbound headers hold `X-Multi: b` alone: the value "a" is gone,
each `Set` having replaced the value set before it. -/
theorem replay_keeps_only_last_value :
    (ServeHTTP addsTwoValues {} (servedRequest getRoot { Path := "/" })).Header.1 =
      [("X-Multi", ["a", "b"])] ∧
    (NewFastGlueHandler parseRequestURI addsTwoValues getRoot).err = none ∧
    (NewFastGlueHandler parseRequestURI addsTwoValues getRoot).ctx.Response.header =
      [("X-Multi", "b")] ∧
    ("X-Multi", "a") ∉ (NewFastGlueHandler parseRequestURI addsTwoValues getRoot).ctx.Response.header := by
  refine ⟨by rfl, by rfl, by rfl, ?_⟩
  have h : (NewFastGlueHandler parseRequestURI addsTwoValues getRoot).ctx.Response.header =
      [("X-Multi", "b")] := by rfl
  rw [h]
  decide

/-- C2, as stated, fails: a handler that calls `WriteHeader(0)` leaves the
inbound transaction with status 200, not 0. -/
theorem status_zero_counterexample :
    (NewFastGlueHandler parseRequestURI writesHeaderZero getRoot).served.length = 1 ∧
    (NewFastGlueHandler parseRequestURI writesHeaderZero getRoot).ctx.Response.statusCode = 200 ∧
    (NewFastGlueHandler parseRequestURI writesHeaderZero getRoot).ctx.Response.statusCode ≠ 0 := by
  have h : (NewFastGlueHandler parseRequestURI writesHeaderZero getRoot).ctx.Response.statusCode =
      200 := by rfl
  refine ⟨by rfl, h, ?_⟩
  rw [h]
  decide

/-- C2, amended: when the request-target parses, the status set on the inbound
transaction is 200 if the handler never calls `WriteHeader`, it is exactly `c`
if the handler's last `WriteHeader` call has a code `c` other than 0, and it is
200 if that code is 0. -/
theorem status_replayed (ParseRequestURI : String → Except Error URL) (h : Handler)
    (req : RequestCtx) (u : URL) (hparse : ParseRequestURI req.requestURI = .ok u) :
    (lastWriteHeader (h (servedRequest req u)) = none →
      (NewFastGlueHandler ParseRequestURI h req).ctx.Response.statusCode = 200) ∧
    (∀ c : Int, lastWriteHeader (h (servedRequest req u)) = some c → c ≠ 0 →
      (NewFastGlueHandler ParseRequestURI h req).ctx.Response.statusCode = c) ∧
    (lastWriteHeader (h (servedRequest req u)) = some 0 →
      (NewFastGlueHandler ParseRequestURI h req).ctx.Response.statusCode = 200) := by
  rw [outcome_statusCode ParseRequestURI h req u hparse, StatusCode_calls]
  refine ⟨?_, ?_, ?_⟩
  · intro hnone
    rw [hnone]
  · intro c hsome hc
    rw [hsome]
    simp [hc]
  · intro hsome
    rw [hsome]
    rfl

/-- C2, amended, at `GET /` with the handler `writesOk`: the target parses, the
last `WriteHeader` has code 201, and the status set is 201. -/
theorem status_replayed_witness :
    parseRequestURI getRoot.requestURI = .ok { Path := "/" } ∧
    lastWriteHeader (writesOk (servedRequest getRoot { Path := "/" })) = some 201 ∧
    (NewFastGlueHandler parseRequestURI writesOk getRoot).ctx.Response.statusCode = 201 :=
  ⟨rfl, rfl,
    (status_replayed parseRequestURI writesOk getRoot { Path := "/" } rfl).2.1 201 rfl
      (by decide)⟩

/-- C3: for every body `b` and every sequence of `Read` calls on non-empty
destination buffers there is a call index `N`, at most `len(b)`, such that no
call before `N` reports an error, the bytes returned by the calls before `N`
concatenate to exactly `b`, and every call from `N` on returns 0 bytes and
`io.EOF`. -/
theorem read_to_exhaustion (b : List Byte) (bufs : Nat → List Byte)
    (hbufs : ∀ i, 0 < (bufs i).length) :
    ∃ N, N ≤ b.length ∧
      (∀ i, i < N → (readResult { b := b } bufs i).err = none) ∧
      ((List.range N).map (fun i => (readResult { b := b } bufs i).data)).flatten = b ∧
      (∀ i, N ≤ i → (readResult { b := b } bufs i).n = 0 ∧
        (readResult { b := b } bufs i).data = [] ∧
        (readResult { b := b } bufs i).err = some Error.EOF) :=
  read_exhausts_aux b.length b bufs (Nat.le_refl _) hbufs

/-- C3 at a body of three bytes read through buffers of two bytes. -/
theorem read_to_exhaustion_witness :
    (∀ i, 0 < (twoByteBuffers i).length) ∧
    ∃ N, N ≤ threeBytes.length ∧
      (∀ i, i < N → (readResult { b := threeBytes } twoByteBuffers i).err = none) ∧
      ((List.range N).map
        (fun i => (readResult { b := threeBytes } twoByteBuffers i).data)).flatten = threeBytes ∧
      (∀ i, N ≤ i → (readResult { b := threeBytes } twoByteBuffers i).n = 0 ∧
        (readResult { b := threeBytes } twoByteBuffers i).data = [] ∧
        (readResult { b := threeBytes } twoByteBuffers i).err = some Error.EOF) :=
  ⟨fun _ => by simp [twoByteBuffers],
    read_to_exhaustion threeBytes twoByteBuffers (fun _ => by simp [twoByteBuffers])⟩

/-- C4: when the request-target does not parse, the legacy handler is not
invoked, the inbound transaction's response is exactly the fallback error
response on the untouched transaction (status 500, body "Internal Server
Error", nothing of the handler's or of the translation), the parse error is
returned, and the outcome is the same for every legacy handler. -/
theorem malformed_target (ParseRequestURI : String → Except Error URL) (h : Handler)
    (req : RequestCtx) (err : Error) (hparse : ParseRequestURI req.requestURI = .error err) :
    (NewFastGlueHandler ParseRequestURI h req).served = [] ∧
    (NewFastGlueHandler ParseRequestURI h req).ctx.Response.statusCode = 500 ∧
    (NewFastGlueHandler ParseRequestURI h req).ctx.Response.body =
      "Internal Server Error".toUTF8.data.toList ∧
    (NewFastGlueHandler ParseRequestURI h req).ctx.Response =
      (req.Error "Internal Server Error" 500).Response ∧
    (NewFastGlueHandler ParseRequestURI h req).err = some err ∧
    (∀ h2 : Handler,
      NewFastGlueHandler ParseRequestURI h2 req = NewFastGlueHandler ParseRequestURI h req) := by
  refine ⟨?_, ?_, ?_, ?_, ?_, ?_⟩
  · rw [NewFastGlueHandler_error ParseRequestURI h req err hparse]
  · rw [NewFastGlueHandler_error ParseRequestURI h req err hparse]
    rfl
  · rw [NewFastGlueHandler_error ParseRequestURI h req err hparse]
    rfl
  · rw [NewFastGlueHandler_error ParseRequestURI h req err hparse]
    rfl
  · rw [NewFastGlueHandler_error ParseRequestURI h req err hparse]
  · intro h2
    rw [NewFastGlueHandler_error ParseRequestURI h req err hparse,
      NewFastGlueHandler_error ParseRequestURI h2 req err hparse]

/-- C4 at a request-target holding a raw tab: the parser rejects it, the
handler is not invoked, the status is 500 and the parse error is returned. -/
theorem malformed_target_witness :
    parseRequestURI tabTarget.requestURI =
      .error (.parse "net/url: invalid control character in URL") ∧
    (NewFastGlueHandler parseRequestURI writesOk tabTarget).served = [] ∧
    (NewFastGlueHandler parseRequestURI writesOk tabTarget).ctx.Response.statusCode = 500 ∧
    (NewFastGlueHandler parseRequestURI writesOk tabTarget).err =
      some (.parse "net/url: invalid control character in URL") :=
  have w := malformed_target parseRequestURI writesOk tabTarget
    (.parse "net/url: invalid control character in URL") rfl
  ⟨rfl, w.1, w.2.1, w.2.2.2.2.1⟩

/-- C5, as stated, fails: the name "transfer-encoding" is Transfer-Encoding
when letter case is ignored, yet the adapter leaves the transfer-encoding list
empty and files the value in the ordinary header map, under the key
"Transfer-Encoding". -/
theorem lower_case_transfer_encoding_counterexample :
    specNamesTransferEncoding "transfer-encoding" = true ∧
    (buildRequest lowerCaseTransferEncoding).TransferEncoding = [] ∧
    (buildRequest lowerCaseTransferEncoding).Header = [("Transfer-Encoding", ["chunked"])] ∧
    Header.Get (buildRequest lowerCaseTransferEncoding).Header "Transfer-Encoding" = "chunked" :=
  ⟨by rfl, by rfl, by rfl, by rfl⟩

/-- C5, amended: the transfer-encoding list of the Synthetic Request holds the
values of the inbound headers named exactly "Transfer-Encoding", in visit
order, and nothing else; and the ordinary header map has an entry for
"Transfer-Encoding" exactly when some inbound header with another name has
"Transfer-Encoding" as its canonical form. -/
theorem transfer_encoding_exact_name (req : RequestCtx) :
    (buildRequest req).TransferEncoding =
      (req.header.filter (fun kv => decide (kv.1 = "Transfer-Encoding"))).map (fun kv => kv.2) ∧
    (Header.lookup (buildRequest req).Header "Transfer-Encoding" ≠ none ↔
      ∃ kv ∈ req.header,
        kv.1 ≠ "Transfer-Encoding" ∧ CanonicalMIMEHeaderKey kv.1 = "Transfer-Encoding") := by
  constructor
  · show (req.header.foldl visitHeader ([], [])).2 = _
    rw [visit_transferEncoding]
    rfl
  · show Header.lookup (req.header.foldl visitHeader ([], [])).1 "Transfer-Encoding" ≠ none ↔ _
    rw [visit_lookup_present]
    simp [Header.lookup]

/-- C6, as stated, fails: with the header `X-A` visited twice, first with value
"1" and then with value "2", looking `X-A` up in the Synthetic Request's
header map returns "2", not the "1" of the first pair. -/
theorem repeated_header_counterexample :
    ("X-A", "1") ∈ repeatedHeader.header ∧
    Header.Get (buildRequest repeatedHeader).Header "X-A" = "2" ∧
    Header.Get (buildRequest repeatedHeader).Header "X-A" ≠ "1" := by
  have h : Header.Get (buildRequest repeatedHeader).Header "X-A" = "2" := by rfl
  refine ⟨by decide, h, ?_⟩
  rw [h]
  decide

/-- C6, amended: for every inbound header pair whose name is not
"Transfer-Encoding" and which no later pair (other than one named
"Transfer-Encoding") follows with a name of the same canonical form, looking
that name up in the Synthetic Request's header map returns that pair's
value. -/
theorem header_last_value_readable (req : RequestCtx) (pre post : List (String × String))
    (k v : String) (hsplit : req.header = pre ++ (k, v) :: post)
    (hk : k ≠ "Transfer-Encoding")
    (hlast : ∀ kv ∈ post, kv.1 ≠ "Transfer-Encoding" →
      CanonicalMIMEHeaderKey kv.1 ≠ CanonicalMIMEHeaderKey k) :
    Header.Get (buildRequest req).Header k = v := by
  have hmap : (buildRequest req).Header = (req.header.foldl visitHeader ([], [])).1 := rfl
  unfold Header.Get
  rw [hmap, hsplit, List.foldl_append, List.foldl_cons,
    visit_lookup_keep (CanonicalMIMEHeaderKey k) post _ hlast,
    visitHeader_other _ k v hk]
  simp [Header.Set, lookup_store]

/-- C6, amended, at the header `Foo-Bar`, followed by a Transfer-Encoding header
and by `Abc`. -/
theorem header_last_value_readable_witness :
    mixedHeaders.header =
      [] ++ ("Foo-Bar", "baz") :: [("Transfer-Encoding", "encoding"), ("Abc", "defg")] ∧
    "Foo-Bar" ≠ "Transfer-Encoding" ∧
    (∀ kv ∈ [("Transfer-Encoding", "encoding"), ("Abc", "defg")],
      kv.1 ≠ "Transfer-Encoding" →
        CanonicalMIMEHeaderKey kv.1 ≠ CanonicalMIMEHeaderKey "Foo-Bar") ∧
    Header.Get (buildRequest mixedHeaders).Header "Foo-Bar" = "baz" :=
  ⟨rfl, by decide, by decide,
    header_last_value_readable mixedHeaders []
      [("Transfer-Encoding", "encoding"), ("Abc", "defg")] "Foo-Bar" "baz" rfl (by decide)
      (by decide)⟩

/-- C7: every `Write` returns `len(p), nil`, and when the request-target
parses the bytes the returned handler adds to the inbound transaction's body
are the slices the legacy handler wrote, concatenated in call order, whatever
`WriteHeader` and `Header` calls come in between (nothing at all when the
handler wrote nothing). -/
theorem body_writes_concatenated (ParseRequestURI : String → Except Error URL) (h : Handler)
    (req : RequestCtx) (u : URL) (hparse : ParseRequestURI req.requestURI = .ok u)
    (w : netHTTPResponseWriter) (p : List Byte) :
    (w.Write p).1 = (p.length, none) ∧
    (w.Write p).2.body = w.body ++ p ∧
    (({} : netHTTPResponseWriter).calls (h (servedRequest req u))).body =
      writtenBytes (h (servedRequest req u)) ∧
    (NewFastGlueHandler ParseRequestURI h req).ctx.Response.body =
      req.Response.body ++ writtenBytes (h (servedRequest req u)) ∧
    (NewFastGlueHandler ParseRequestURI h req).err = none := by
  refine ⟨rfl, rfl, ?_, outcome_body ParseRequestURI h req u hparse, ?_⟩
  · rw [calls_body]
    rfl
  · rw [NewFastGlueHandler_ok ParseRequestURI h req u hparse]

/-- C7 at `GET /` on a fresh response with the handler `writesOk`, which writes
"o" and "k" around a header access: the body is "ok". -/
theorem body_writes_concatenated_witness :
    parseRequestURI getRoot.requestURI = .ok { Path := "/" } ∧
    getRoot.Response.body = [] ∧
    writtenBytes (writesOk (servedRequest getRoot { Path := "/" })) = [111, 107] ∧
    (NewFastGlueHandler parseRequestURI writesOk getRoot).ctx.Response.body =
      getRoot.Response.body ++ writtenBytes (writesOk (servedRequest getRoot { Path := "/" })) :=
  ⟨rfl, rfl, rfl,
    (body_writes_concatenated parseRequestURI writesOk getRoot { Path := "/" } rfl {} []).2.2.2.1⟩

/-- C8: in every state of the body reader `Close` returns no error and leaves
no unread byte, the `Read` that follows returns 0 bytes and `io.EOF` whatever
its destination buffer, and a second `Close` returns the same result and
leaves the same state as the first. -/
theorem close_discards (r : netHTTPBody) :
    r.Close.1 = none ∧
    r.Close.2.b = [] ∧
    (∀ p : List Byte,
      r.Close.2.Read p = ({ p := p, n := 0, err := some Error.EOF }, r.Close.2)) ∧
    r.Close.2.Close = r.Close ∧
    (∀ p : List Byte, (r.Read p).2.Close = r.Close) := by
  refine ⟨rfl, ?_, ?_, ?_, ?_⟩
  · simp [netHTTPBody.Close]
  · intro p
    simp [netHTTPBody.Close, netHTTPBody.Read]
  · simp [netHTTPBody.Close]
  · intro p
    simp [netHTTPBody.Close]

/-- C9, as stated, fails: with `WriteHeader(201)`, then a body `Write`, then
`WriteHeader(500)`, the last `WriteHeader` before the first body `Write` has
code 201, yet `StatusCode` reports 500; the `WriteHeader` made after the body
`Write` did change the reported status, which was 201 before it. -/
theorem header_after_write_counterexample :
    lastWriteHeader (beforeFirstWrite headerAfterWrite) = some 201 ∧
    (({} : netHTTPResponseWriter).calls headerAfterWrite).StatusCode = 500 ∧
    (({} : netHTTPResponseWriter).calls headerAfterWrite).StatusCode ≠ 201 ∧
    (({} : netHTTPResponseWriter).calls (headerAfterWrite.take 2)).StatusCode = 201 := by
  have h : (({} : netHTTPResponseWriter).calls headerAfterWrite).StatusCode = 500 := by rfl
  refine ⟨by rfl, h, ?_, by rfl⟩
  rw [h]
  decide

/-- C9, amended: for every sequence of calls on the response writer the status
reported by `StatusCode` is the code of the last `WriteHeader` call of the
whole sequence, before or after any body `Write`, read as 200 when there is no
such call or when its code is 0; body `Write` and `Header` calls leave the
reported status as it is. -/
theorem status_is_last_write_header (cs : List RWCall) (c : Int) (p : List Byte)
    (mutate : Header → Header) :
    ((({} : netHTTPResponseWriter).calls cs).StatusCode =
      match lastWriteHeader cs with
      | none => 200
      | some d => if d = 0 then 200 else d) ∧
    (({} : netHTTPResponseWriter).calls (cs ++ [.WriteHeader c])).StatusCode =
      (if c = 0 then 200 else c) ∧
    (({} : netHTTPResponseWriter).calls (cs ++ [.Write p])).StatusCode =
      (({} : netHTTPResponseWriter).calls cs).StatusCode ∧
    (({} : netHTTPResponseWriter).calls (cs ++ [.Header mutate])).StatusCode =
      (({} : netHTTPResponseWriter).calls cs).StatusCode := by
  refine ⟨StatusCode_calls cs, ?_, ?_, ?_⟩
  · simp [netHTTPResponseWriter.calls, netHTTPResponseWriter.call,
      netHTTPResponseWriter.WriteHeader, netHTTPResponseWriter.StatusCode]
  · simp [netHTTPResponseWriter.calls, netHTTPResponseWriter.call,
      netHTTPResponseWriter.Write, netHTTPResponseWriter.StatusCode]
  · simp [netHTTPResponseWriter.calls, netHTTPResponseWriter.call,
      netHTTPResponseWriter.StatusCode, Header_statusCode]

/-- C10: when the request-target parses, the legacy handler is invoked once,
with a request whose Method, RequestURI, Host and RemoteAddr are the inbound
strings, whose ContentLength is the byte length of the buffered body, whose
body reader holds that body, and whose protocol is "HTTP/1.1", 1, 1 whatever
version the inbound transaction carries. -/
theorem synthetic_request_fields (ParseRequestURI : String → Except Error URL) (h : Handler)
    (req : RequestCtx) (u : URL) (hparse : ParseRequestURI req.requestURI = .ok u) :
    ∃ r : HttpRequest,
      (NewFastGlueHandler ParseRequestURI h req).served = [r] ∧
      r.Method = req.method ∧
      r.RequestURI = req.requestURI ∧
      r.Host = req.host ∧
      r.RemoteAddr = req.remoteAddr ∧
      r.ContentLength = Int.ofNat req.postBody.length ∧
      r.Body.b = req.postBody ∧
      r.Proto = "HTTP/1.1" ∧ r.ProtoMajor = 1 ∧ r.ProtoMinor = 1 ∧
      r.URL = some u := by
  refine ⟨servedRequest req u, ?_, rfl, rfl, rfl, rfl, rfl, rfl, rfl, rfl, rfl, rfl⟩
  rw [NewFastGlueHandler_ok ParseRequestURI h req u hparse]

/-- C10 at `GET /` with body "hello", the inbound transaction carrying
version HTTP/1.0. -/
theorem synthetic_request_fields_witness :
    parseRequestURI ({ getRoot with protocol := "HTTP/1.0" } : RequestCtx).requestURI =
      .ok { Path := "/" } ∧
    ∃ r : HttpRequest,
      (NewFastGlueHandler parseRequestURI writesOk
        { getRoot with protocol := "HTTP/1.0" }).served = [r] ∧
      r.Method = "GET" ∧ r.RequestURI = "/" ∧ r.Host = "foobar.com" ∧
      r.RemoteAddr = "172.217.167.174:80" ∧ r.ContentLength = 5 ∧
      r.Body.b = [104, 101, 108, 108, 111] ∧
      r.Proto = "HTTP/1.1" ∧ r.ProtoMajor = 1 ∧ r.ProtoMinor = 1 ∧
      r.URL = some { Path := "/" } :=
  ⟨rfl,
    synthetic_request_fields parseRequestURI writesOk { getRoot with protocol := "HTTP/1.0" }
      { Path := "/" } rfl⟩

end FastglueAdapter
